import Mathlib

/-!
Verification development for the dependency-driven evaluation engine of the
`egui_node_graph` example application (`src/egui_node_graph_example/src/app.rs`).

The evaluator core (`evaluate_node`, `evaluate_input`, `populate_output`,
`build_node`, the value model `MyValueType` and its `try_to_*` downcasts) is
translated from the Rust source.  The graph store itself (nodes, ports,
connections, the slotmap-style arenas) lives in the `egui_node_graph` library
crate of this repository, whose sources are not available here; it is modelled
from the specification's data-model section (nodes own ordered named ports,
an input port has at most one incoming connection, output ports have stable
identities usable as cache keys, indexing panics on a stale id).

Numeric values (`f32` in the source) are modelled by `Int`, an exact numeric
carrier with decidable, kernel-computable arithmetic and order (every concrete
value exercised by the spec is an integer); the IEEE bit-widths
of the source types are recorded separately for the precision claims.  Rust
panics (`unwrap`, `expect`, slotmap indexing) are a distinct outcome from
`anyhow` errors, and exhaustion of the recursion is a fourth outcome driven by
an explicit fuel parameter (the Rust recursion is unbounded).
-/

namespace NodeGraph

/-! ## Value model (from `MyValueType` in the source; `f32` carried by `Int`) -/

/-- Payload of a polars `Series` as the evaluator uses it: a named column of
nullable numbers, or a nullable text column (what `LoadCSV`/`SelectColumn` can
produce and `SimpleFilter` cannot compare). -/
inductive SeriesData where
  | nums : List (Option Int) → SeriesData
  | strs : List (Option String) → SeriesData
deriving DecidableEq

/-- A polars `Series`: a named single column. -/
structure Series where
  name : String
  data : SeriesData
deriving DecidableEq

/-- A polars `DataFrame`: an ordered list of named columns. -/
structure DataFrame where
  columns : List Series
deriving DecidableEq

/-- The source `MyValueType` enum.  `Vec2` carries the two `egui::Vec2`
components, `Scalar` the `f32` payload (both modelled by `Int`). -/
inductive MyValueType where
  | vec2 : Int → Int → MyValueType
  | scalar : Int → MyValueType
  | string : String → MyValueType
  | series : Series → MyValueType
  | dataframe : DataFrame → MyValueType
deriving DecidableEq

/-- The source `MyDataType` enum (port data-type tags). -/
inductive MyDataType where
  | scalar
  | vec2
  | string
  | series
  | dataframe
deriving DecidableEq

/-- The source `MyNodeTemplate` enum (node kinds). -/
inductive MyNodeTemplate where
  | MakeScalar
  | AddScalar
  | SubtractScalar
  | MakeVector
  | AddVector
  | SubtractVector
  | VectorTimesScalar
  | LoadCSV
  | CountRows
  | SelectColumn
  | SimpleFilter
deriving DecidableEq

/-- `MyValueType::try_to_vec2` from the source: fallible downcast. -/
def MyValueType.try_to_vec2 : MyValueType → Except String (Int × Int)
  | .vec2 x y => .ok (x, y)
  | _ => .error "Invalid cast to vec2"

/-- `MyValueType::try_to_scalar` from the source. -/
def MyValueType.try_to_scalar : MyValueType → Except String Int
  | .scalar v => .ok v
  | _ => .error "Invalid cast to scalar"

/-- `MyValueType::try_to_string` from the source. -/
def MyValueType.try_to_string : MyValueType → Except String String
  | .string s => .ok s
  | _ => .error "Invalid cast to string"

/-- `MyValueType::try_to_series` from the source. -/
def MyValueType.try_to_series : MyValueType → Except String Series
  | .series s => .ok s
  | _ => .error "Invalid cast to series"

/-- `MyValueType::try_to_dataframe` from the source. -/
def MyValueType.try_to_dataframe : MyValueType → Except String DataFrame
  | .dataframe d => .ok d
  | _ => .error "Invalid cast to dataframe"

/-! ## Series / frame operations used by the evaluator (polars semantics) -/

/-- Length of a column. -/
def SeriesData.length : SeriesData → Nat
  | .nums xs => xs.length
  | .strs xs => xs.length

/-- `series.gt_eq(m)` for a numeric bound: elementwise `e ≥ m`; a null element
yields a mask entry that the subsequent `filter` drops; a text column cannot be
compared with a number and yields an `Err` (which the source `unwrap`s). -/
def Series.gt_eq (s : Series) (m : Int) : Except String (List Bool) :=
  match s.data with
  | .nums xs => .ok (xs.map fun o => match o with | some q => decide (m ≤ q) | none => false)
  | .strs _ => .error "cannot compare a string series with a number"

/-- `series.lt_eq(m)`: elementwise `e ≤ m`, same null/text behaviour. -/
def Series.lt_eq (s : Series) (m : Int) : Except String (List Bool) :=
  match s.data with
  | .nums xs => .ok (xs.map fun o => match o with | some q => decide (q ≤ m) | none => false)
  | .strs _ => .error "cannot compare a string series with a number"

/-- Keep the elements of `xs` whose mask entry is `true`, in order. -/
def maskKeep {α : Type} (xs : List α) (mask : List Bool) : List α :=
  (xs.zip mask).filterMap fun p => if p.2 then some p.1 else none

/-- `series.filter(mask)`: keeps the rows whose mask entry is true; polars
fails when the mask length differs from the series length. -/
def Series.filterMask (s : Series) (mask : List Bool) : Except String Series :=
  match s.data with
  | .nums xs =>
    if xs.length = mask.length then .ok ⟨s.name, .nums (maskKeep xs mask)⟩
    else .error "filter mask length mismatch"
  | .strs xs =>
    if xs.length = mask.length then .ok ⟨s.name, .strs (maskKeep xs mask)⟩
    else .error "filter mask length mismatch"

/-- `df.height()`: polars row count, the first column's length (0 if none). -/
def DataFrame.height (df : DataFrame) : Nat :=
  match df.columns with
  | [] => 0
  | col :: _ => col.data.length

/-- `df.get_column_index(name)`: position of the first column with that name. -/
def DataFrame.get_column_index (df : DataFrame) (cname : String) : Option Nat :=
  df.columns.findIdx? fun s => s.name == cname

/-- `df.column(name)`: the first column with that name, `Err` when absent. -/
def DataFrame.column (df : DataFrame) (cname : String) : Except String Series :=
  match df.columns.find? (fun s => s.name == cname) with
  | some s => .ok s
  | none => .error "column not found"

/-! ## Graph model

Modelled from the spec: the `egui_node_graph` library's graph store is not in
`src/`; per the spec's data model, a node has a kind tag and ordered named
input/output ports, an input port stores a constant value and has at most one
incoming connection, an output port has a stable identity usable as a cache
key, and indexing the arenas with a stale id panics. -/

/-- Modelled from the spec: an input port's graph-side record (its stored
constant value, used when the port is unconnected). -/
structure InputParam where
  value : MyValueType
deriving DecidableEq

/-- Modelled from the spec: an output port's graph-side record (the node that
owns it, as `graph[output_id].node` in the source). -/
structure OutputParam where
  node : Nat
deriving DecidableEq

/-- Modelled from the spec: a node, with its kind tag and its ordered named
input and output port lists (name, port id). -/
structure Node where
  template : MyNodeTemplate
  inputIds : List (String × Nat)
  outputIds : List (String × Nat)
deriving DecidableEq

/-- Modelled from the spec: the graph store, id-indexed association lists in
place of the library's slotmap arenas. `connections` maps an input port id to
the output port id feeding it (at most one incoming connection per input). -/
structure Graph where
  nodes : List (Nat × Node)
  inputs : List (Nat × InputParam)
  outputs : List (Nat × OutputParam)
  connections : List (Nat × Nat)
deriving DecidableEq

/-- Node lookup (`graph[node_id]` indexes, the caller handles the panic). -/
def Graph.node? (g : Graph) (n : Nat) : Option Node := List.lookup n g.nodes

/-- Input-port lookup (`graph[input_id]`). -/
def Graph.input? (g : Graph) (i : Nat) : Option InputParam := List.lookup i g.inputs

/-- Output-port lookup (`graph[output_id]`). -/
def Graph.output? (g : Graph) (o : Nat) : Option OutputParam := List.lookup o g.outputs

/-- `graph.connection(input_id)`: the output feeding this input, if any. -/
def Graph.connection (g : Graph) (i : Nat) : Option Nat := List.lookup i g.connections

/-- `node.get_input(name)`: the id of the input port with that name. -/
def Node.get_input (nd : Node) (pname : String) : Option Nat := List.lookup pname nd.inputIds

/-- `node.get_output(name)`: the id of the output port with that name. -/
def Node.get_output (nd : Node) (pname : String) : Option Nat := List.lookup pname nd.outputIds

/-- The cache key of a node's `"out"` output port (every template declares
exactly one output, named `"out"`). -/
def Graph.outKey? (g : Graph) (n : Nat) : Option Nat :=
  (g.node? n).bind fun nd => nd.get_output "out"

/-! ## Evaluation machinery -/

/-- How a Rust evaluation step ends: a returned `Ok` value, a returned
`anyhow` `Err`, a process panic (`unwrap` / `expect` / arena indexing), or
exhaustion of the explicit recursion fuel (the Rust recursion is unbounded;
`fuelOut` marks runs the real program would deepen further). -/
inductive Outcome (α : Type) where
  | ok : α → Outcome α
  | err : String → Outcome α
  | panic : String → Outcome α
  | fuelOut : Outcome α
deriving DecidableEq

/-- The per-pass output cache: output-port id to computed value, insertion by
prepending (lookups see the latest insertion, like `HashMap::insert`). -/
def Cache : Type := List (Nat × MyValueType)

instance : DecidableEq Cache := by
  unfold Cache; infer_instance

/-- Whether a cache key is populated. -/
def Cache.memB (c : Cache) (o : Nat) : Bool := (List.lookup o c).isSome

/-- Key-membership as a proposition. -/
def Cache.mem (c : Cache) (o : Nat) : Prop := Cache.memB c o = true

instance (c : Cache) (o : Nat) : Decidable (Cache.mem c o) := by
  unfold Cache.mem; infer_instance

/-- Result of one evaluation step: the outcome, the cache after the step, and
ghost instrumentation — the output keys populated during the step and the
nodes whose evaluation began during the step (in order). -/
structure EvalRes (α : Type) where
  out : Outcome α
  cache : Cache
  plog : List Nat
  elog : List Nat
deriving DecidableEq

/-- Sequencing with Rust `?` semantics: on `ok` continue with the new cache
and accumulate the instrumentation, otherwise propagate the failure. -/
def andThen {α β : Type} (r : EvalRes α) (k : α → Cache → EvalRes β) : EvalRes β :=
  match r.out with
  | .ok a =>
    let r2 := k a r.cache
    ⟨r2.out, r2.cache, r.plog ++ r2.plog, r.elog ++ r2.elog⟩
  | .err m => ⟨.err m, r.cache, r.plog, r.elog⟩
  | .panic m => ⟨.panic m, r.cache, r.plog, r.elog⟩
  | .fuelOut => ⟨.fuelOut, r.cache, r.plog, r.elog⟩

/-- A pure step. -/
def evalPure {α : Type} (a : α) (c : Cache) : EvalRes α := ⟨.ok a, c, [], []⟩

/-- A returned error (`anyhow::bail!` / `?` on an `Err`). -/
def evalErr {α : Type} (m : String) (c : Cache) : EvalRes α := ⟨.err m, c, [], []⟩

/-- A panic (arena indexing with a stale id, `unwrap`, `expect`). -/
def evalPanic {α : Type} (m : String) (c : Cache) : EvalRes α := ⟨.panic m, c, [], []⟩

/-- Lift an `Except` with `?` semantics (an `Err` is returned to the caller). -/
def ofExcept {α : Type} (e : Except String α) (c : Cache) : EvalRes α :=
  match e with
  | .ok a => ⟨.ok a, c, [], []⟩
  | .error m => ⟨.err m, c, [], []⟩

/-- Lift an `Except` with `.unwrap()` semantics (an `Err` panics). -/
def unwrapE {α : Type} (e : Except String α) (c : Cache) : EvalRes α :=
  match e with
  | .ok a => ⟨.ok a, c, [], []⟩
  | .error m => ⟨.panic ("called unwrap on an Err value: " ++ m), c, [], []⟩

/-- Record that the evaluation of node `n` began (ghost instrumentation). -/
def withElog {α : Type} (n : Nat) (r : EvalRes α) : EvalRes α :=
  ⟨r.out, r.cache, r.plog, n :: r.elog⟩

/-- `populate_output` from the source: look up the node's output port by name
(`graph[node_id].get_output(name)?`), insert the value into the cache keyed by
that port's id, and return the value. -/
def populate_output (g : Graph) (n : Nat) (pname : String) (v : MyValueType)
    (c : Cache) : EvalRes MyValueType :=
  match g.node? n with
  | none => evalPanic "invalid NodeId" c
  | some nd =>
    match nd.get_output pname with
    | none => evalErr ("UnknownPort: " ++ pname) c
    | some o => ⟨.ok v, (o, v) :: c, [o], []⟩

/-- `evaluate_input` from the source, abstracted over the recursive
`evaluate_node` call (`evalN`): look up the input port by name; if it has an
incoming connection, return the cached upstream value on a hit, otherwise
recursively evaluate the owning node of the connected output
(`graph[other_output_id].node`) and re-read the cache, panicking with
`expect("Cache should be populated")` when the entry is still absent; if
unconnected, return the port's stored constant. -/
def inputBody (g : Graph) (evalN : Nat → Cache → EvalRes MyValueType)
    (n : Nat) (pname : String) (c : Cache) : EvalRes MyValueType :=
  match g.node? n with
  | none => evalPanic "invalid NodeId" c
  | some nd =>
    match nd.get_input pname with
    | none => evalErr ("UnknownPort: " ++ pname) c
    | some i =>
      match g.connection i with
      | some o =>
        match List.lookup o c with
        | some v => ⟨.ok v, c, [], []⟩
        | none =>
          match g.output? o with
          | none => evalPanic "invalid OutputId" c
          | some op =>
            andThen (evalN op.node c) fun _ c1 =>
              match List.lookup o c1 with
              | some v => ⟨.ok v, c1, [], []⟩
              | none => evalPanic "Cache should be populated" c1
      | none =>
        match g.input? i with
        | none => evalPanic "invalid InputId" c
        | some p => ⟨.ok p.value, c, [], []⟩

/-- `Evaluator::input_*` in the source: evaluate a named input and downcast. -/
def inputCast {β : Type} (g : Graph) (evalN : Nat → Cache → EvalRes MyValueType)
    (n : Nat) (pname : String) (f : MyValueType → Except String β)
    (c : Cache) : EvalRes β :=
  andThen (inputBody g evalN n pname c) fun v c1 => ofExcept (f v) c1

/-- The dispatch body of `evaluate_node` from the source: one arm per
`MyNodeTemplate`, each pulling its inputs and populating its `"out"` output.
`fs` is the file-system boundary for `LoadCSV` (modelled from the spec: parse
the delimited file at the path into a frame, failing on read/parse errors,
which the source propagates with `?`). -/
def nodeBody (g : Graph) (fs : String → Except String DataFrame)
    (evalN : Nat → Cache → EvalRes MyValueType) (n : Nat) (c : Cache) :
    EvalRes MyValueType :=
  match g.node? n with
  | none => evalPanic "invalid NodeId" c
  | some nd =>
    withElog n
      (match nd.template with
      | .AddScalar =>
        andThen (inputCast g evalN n "A" MyValueType.try_to_scalar c) fun (a : Int) c1 =>
        andThen (inputCast g evalN n "B" MyValueType.try_to_scalar c1) fun (b : Int) c2 =>
        populate_output g n "out" (.scalar (a + b)) c2
      | .SubtractScalar =>
        andThen (inputCast g evalN n "A" MyValueType.try_to_scalar c) fun (a : Int) c1 =>
        andThen (inputCast g evalN n "B" MyValueType.try_to_scalar c1) fun (b : Int) c2 =>
        populate_output g n "out" (.scalar (a - b)) c2
      | .VectorTimesScalar =>
        andThen (inputCast g evalN n "scalar" MyValueType.try_to_scalar c) fun (s : Int) c1 =>
        andThen (inputCast g evalN n "vector" MyValueType.try_to_vec2 c1) fun (v : Int × Int) c2 =>
        populate_output g n "out" (.vec2 (v.1 * s) (v.2 * s)) c2
      | .AddVector =>
        andThen (inputCast g evalN n "v1" MyValueType.try_to_vec2 c) fun (v1 : Int × Int) c1 =>
        andThen (inputCast g evalN n "v2" MyValueType.try_to_vec2 c1) fun (v2 : Int × Int) c2 =>
        populate_output g n "out" (.vec2 (v1.1 + v2.1) (v1.2 + v2.2)) c2
      | .SubtractVector =>
        andThen (inputCast g evalN n "v1" MyValueType.try_to_vec2 c) fun (v1 : Int × Int) c1 =>
        andThen (inputCast g evalN n "v2" MyValueType.try_to_vec2 c1) fun (v2 : Int × Int) c2 =>
        populate_output g n "out" (.vec2 (v1.1 - v2.1) (v1.2 - v2.2)) c2
      | .MakeVector =>
        andThen (inputCast g evalN n "x" MyValueType.try_to_scalar c) fun (x : Int) c1 =>
        andThen (inputCast g evalN n "y" MyValueType.try_to_scalar c1) fun (y : Int) c2 =>
        populate_output g n "out" (.vec2 x y) c2
      | .MakeScalar =>
        andThen (inputCast g evalN n "value" MyValueType.try_to_scalar c) fun (v : Int) c1 =>
        populate_output g n "out" (.scalar v) c1
      | .LoadCSV =>
        andThen (inputCast g evalN n "path" MyValueType.try_to_string c) fun (path : String) c1 =>
        andThen (ofExcept (fs path) c1) fun (df : DataFrame) c2 =>
        populate_output g n "out" (.dataframe df) c2
      | .CountRows =>
        andThen (inputCast g evalN n "df" MyValueType.try_to_dataframe c) fun (df : DataFrame) c1 =>
        populate_output g n "out" (.scalar (df.height : Int)) c1
      | .SelectColumn =>
        andThen (inputCast g evalN n "df" MyValueType.try_to_dataframe c) fun (df : DataFrame) c1 =>
        andThen (inputCast g evalN n "column" MyValueType.try_to_string c1) fun (cname : String) c2 =>
        match df.get_column_index cname with
        | some _ =>
          andThen (unwrapE (df.column cname) c2) fun (s : Series) c3 =>
          populate_output g n "out" (.series s) c3
        | none =>
          populate_output g n "out" (.series ⟨"empty", .nums []⟩) c2
      | .SimpleFilter =>
        andThen (inputCast g evalN n "df" MyValueType.try_to_series c) fun (s : Series) c1 =>
        andThen (inputCast g evalN n "min" MyValueType.try_to_scalar c1) fun (mn : Int) c2 =>
        andThen (inputCast g evalN n "max" MyValueType.try_to_scalar c2) fun (mx : Int) c3 =>
        andThen (unwrapE (s.gt_eq mn) c3) fun (m1 : List Bool) c4 =>
        andThen (unwrapE (s.filterMask m1) c4) fun (s1 : Series) c5 =>
        andThen (unwrapE (s1.lt_eq mx) c5) fun (m2 : List Bool) c6 =>
        andThen (unwrapE (s1.filterMask m2) c6) fun (s2 : Series) c7 =>
        populate_output g n "out" (.series s2) c7)

/-- `evaluate_node` from the source, with an explicit recursion fuel: each
node evaluation consumes one unit; the Rust function recurses unboundedly. -/
def evaluate_node (g : Graph) (fs : String → Except String DataFrame) :
    Nat → Nat → Cache → EvalRes MyValueType
  | 0, _, c => ⟨.fuelOut, c, [], []⟩
  | fuel + 1, n, c => nodeBody g fs (fun u c2 => evaluate_node g fs fuel u c2) n c

/-- `evaluate_input` from the source: the input resolver, recursing into
`evaluate_node` with the given fuel. -/
def evaluate_input (g : Graph) (fs : String → Except String DataFrame)
    (fuel : Nat) (n : Nat) (pname : String) (c : Cache) : EvalRes MyValueType :=
  inputBody g (fun u c2 => evaluate_node g fs fuel u c2) n pname c

/-! ## Structural predicates on graphs

The editor collaborator maintains these invariants (spec data model): every
connection target is the `"out"` output of the node that owns it, every node
declares an `"out"` output, and output-port ids are not shared between nodes.
`Rankedp` is an acyclicity witness: a ranking of nodes that strictly decreases
along every connection (downstream node to upstream node). -/

/-- Well-formedness of a graph (spec data-model invariants, see section note). -/
def WFp (g : Graph) : Prop :=
  (∀ p ∈ g.connections, ∀ s ∈ g.outputs, p.2 = s.1 → g.outKey? s.2.node = some p.2)
  ∧ (∀ q ∈ g.nodes, (q.2.get_output "out").isSome = true)
  ∧ (∀ q ∈ g.nodes, ∀ r ∈ g.nodes,
      q.2.get_output "out" = r.2.get_output "out" →
      (q.2.get_output "out").isSome = true → q.1 = r.1)

instance (g : Graph) : Decidable (WFp g) := by
  unfold WFp; infer_instance

/-- Acyclicity witness: `rank` strictly decreases from a node to the owner of
any output feeding one of its inputs. -/
def Rankedp (g : Graph) (rank : Nat → Nat) : Prop :=
  ∀ p ∈ g.nodes, ∀ q ∈ p.2.inputIds, ∀ r ∈ g.connections, q.2 = r.1 →
    ∀ s ∈ g.outputs, r.2 = s.1 → rank s.2.node < rank p.1

instance (g : Graph) (rank : Nat → Nat) : Decidable (Rankedp g rank) := by
  unfold Rankedp; infer_instance

/-! ## `build_node` (template instantiation) and type defaults -/

/-- The ports `build_node` creates for a template: ordered inputs
(name, data type, default constant) and ordered outputs (name, data type),
translated arm by arm from the source (the `input_scalar` closure passes
`Scalar { value: 0.0 }`, `input_string` the empty string, `input_vector`
`vec2(0.0, 0.0)`, `input_dataframe` `DataFrame::empty()`, `input_series`
`Series::new("empty", [])`). -/
def build_node (t : MyNodeTemplate) :
    List (String × MyDataType × MyValueType) × List (String × MyDataType) :=
  match t with
  | .AddScalar =>
    ([("A", .scalar, .scalar 0), ("B", .scalar, .scalar 0)], [("out", .scalar)])
  | .SubtractScalar =>
    ([("A", .scalar, .scalar 0), ("B", .scalar, .scalar 0)], [("out", .scalar)])
  | .VectorTimesScalar =>
    ([("scalar", .scalar, .scalar 0), ("vector", .vec2, .vec2 0 0)], [("out", .vec2)])
  | .AddVector =>
    ([("v1", .vec2, .vec2 0 0), ("v2", .vec2, .vec2 0 0)], [("out", .vec2)])
  | .SubtractVector =>
    ([("v1", .vec2, .vec2 0 0), ("v2", .vec2, .vec2 0 0)], [("out", .vec2)])
  | .MakeVector =>
    ([("x", .scalar, .scalar 0), ("y", .scalar, .scalar 0)], [("out", .vec2)])
  | .MakeScalar =>
    ([("value", .scalar, .scalar 0)], [("out", .scalar)])
  | .LoadCSV =>
    ([("path", .string, .string "")], [("out", .dataframe)])
  | .CountRows =>
    ([("df", .dataframe, .dataframe ⟨[]⟩)], [("out", .scalar)])
  | .SelectColumn =>
    ([("df", .dataframe, .dataframe ⟨[]⟩), ("column", .string, .string "")],
     [("out", .series)])
  | .SimpleFilter =>
    ([("df", .series, .series ⟨"empty", .nums []⟩),
      ("min", .scalar, .scalar 0), ("max", .scalar, .scalar 0)],
     [("out", .series)])

/-- The default constant each data type gets in `build_node`, as claimed:
scalars 0, strings empty, vectors (0,0), frames empty, series empty named
"empty".  Stated from the claim's words, to be compared with `build_node`. -/
def defaultValueFor : MyDataType → MyValueType
  | .scalar => .scalar 0
  | .vec2 => .vec2 0 0
  | .string => .string ""
  | .dataframe => .dataframe ⟨[]⟩
  | .series => .series ⟨"empty", .nums []⟩

/-- Pair each list element with its index, starting at `i`. -/
def withIdx {α : Type} : Nat → List α → List (Nat × α)
  | _, [] => []
  | i, x :: t => (i, x) :: withIdx (i + 1) t

/-- A fresh single-node graph instantiated from a template: node id 0, input
port ids are the input positions, output port ids are 100 plus the position,
no connections (all inputs unconnected, holding their `build_node` defaults). -/
def graphOfNode (t : MyNodeTemplate) : Graph :=
  { nodes := [(0, ⟨t, (withIdx 0 (build_node t).1).map (fun p => (p.2.1, p.1)),
                  (withIdx 100 (build_node t).2).map (fun p => (p.2.1, p.1))⟩)]
    inputs := (withIdx 0 (build_node t).1).map fun p => (p.1, ⟨p.2.2.2⟩)
    outputs := (withIdx 100 (build_node t).2).map fun p => (p.1, ⟨0⟩)
    connections := [] }

/-! ## Floating-point widths (for the precision claims) -/

/-- Bit width of the floating-point type the source uses for scalar values:
`MyValueType::Scalar { value: f32 }`, IEEE single precision. -/
def scalarFloatBits : Nat := 32

/-- Bit width of the components of the source vector payload `egui::Vec2`
(two `f32` fields), IEEE single precision. -/
def vec2FloatBits : Nat := 32

/-- Modelled from the spec: the spec's value model declares `Scalar(float64)`
and `Vector2({x,y}: float64 pair)`, IEEE double precision (64-bit). -/
def specScalarFloatBits : Nat := 64

/-! ## Spec-side predicate for `SimpleFilter` -/

/-- The spec's keep-predicate for `SimpleFilter`: keep element `e` when
`min ≤ e ≤ max` (both bounds inclusive), drop nulls.  Stated from the spec's
words, to be compared with the two-pass mask filtering the source performs. -/
def specFilterKeep (mn mx : Int) : Option Int → Bool
  | some q => decide (mn ≤ q ∧ q ≤ mx)
  | none => false

/-! ## Concrete graphs used to settle the claims -/

/-- A file system exposing no files (the non-`LoadCSV` claims never read). -/
def fsNone : String → Except String DataFrame := fun _ => .error "no such file"

/-- A single `AddScalar` node with unconnected constant inputs `a` and `b`. -/
def addGraph (a b : Int) : Graph :=
  { nodes := [(0, ⟨.AddScalar, [("A", 0), ("B", 1)], [("out", 100)]⟩)]
    inputs := [(0, ⟨.scalar a⟩), (1, ⟨.scalar b⟩)]
    outputs := [(100, ⟨0⟩)]
    connections := [] }

/-- A single `SubtractScalar` node with constant inputs. -/
def subGraph (a b : Int) : Graph :=
  { nodes := [(0, ⟨.SubtractScalar, [("A", 0), ("B", 1)], [("out", 100)]⟩)]
    inputs := [(0, ⟨.scalar a⟩), (1, ⟨.scalar b⟩)]
    outputs := [(100, ⟨0⟩)]
    connections := [] }

/-- A single `VectorTimesScalar` node with constant inputs. -/
def vtsGraph (s vx vy : Int) : Graph :=
  { nodes := [(0, ⟨.VectorTimesScalar, [("scalar", 0), ("vector", 1)], [("out", 100)]⟩)]
    inputs := [(0, ⟨.scalar s⟩), (1, ⟨.vec2 vx vy⟩)]
    outputs := [(100, ⟨0⟩)]
    connections := [] }

/-- A single `MakeVector` node with constant inputs. -/
def mkvGraph (x y : Int) : Graph :=
  { nodes := [(0, ⟨.MakeVector, [("x", 0), ("y", 1)], [("out", 100)]⟩)]
    inputs := [(0, ⟨.scalar x⟩), (1, ⟨.scalar y⟩)]
    outputs := [(100, ⟨0⟩)]
    connections := [] }

/-- A single `SimpleFilter` node whose series and bounds are unconnected
constants. -/
def filterGraph (name : String) (sd : SeriesData) (mn mx : Int) : Graph :=
  { nodes := [(0, ⟨.SimpleFilter, [("df", 0), ("min", 1), ("max", 2)], [("out", 100)]⟩)]
    inputs := [(0, ⟨.series ⟨name, sd⟩⟩), (1, ⟨.scalar mn⟩), (2, ⟨.scalar mx⟩)]
    outputs := [(100, ⟨0⟩)]
    connections := [] }

/-- A single `SelectColumn` node with a constant frame and column name. -/
def selectGraph (cols : List Series) (cname : String) : Graph :=
  { nodes := [(0, ⟨.SelectColumn, [("df", 0), ("column", 1)], [("out", 100)]⟩)]
    inputs := [(0, ⟨.dataframe ⟨cols⟩⟩), (1, ⟨.string cname⟩)]
    outputs := [(100, ⟨0⟩)]
    connections := [] }

/-- A diamond dependency: node 0 (`MakeScalar 5`) feeds the `A` inputs of the
sibling `AddScalar` nodes 1 and 2, whose outputs feed the two inputs of the
root `AddScalar` node 3. -/
def diamondGraph : Graph :=
  { nodes := [(0, ⟨.MakeScalar, [("value", 0)], [("out", 100)]⟩),
              (1, ⟨.AddScalar, [("A", 10), ("B", 11)], [("out", 101)]⟩),
              (2, ⟨.AddScalar, [("A", 20), ("B", 21)], [("out", 102)]⟩),
              (3, ⟨.AddScalar, [("A", 30), ("B", 31)], [("out", 103)]⟩)]
    inputs := [(0, ⟨.scalar 5⟩), (10, ⟨.scalar 0⟩), (11, ⟨.scalar 1⟩),
               (20, ⟨.scalar 0⟩), (21, ⟨.scalar 2⟩),
               (30, ⟨.scalar 0⟩), (31, ⟨.scalar 0⟩)]
    outputs := [(100, ⟨0⟩), (101, ⟨1⟩), (102, ⟨2⟩), (103, ⟨3⟩)]
    connections := [(10, 100), (20, 100), (30, 101), (31, 102)] }

/-- A ranking witnessing that `diamondGraph` is acyclic. -/
def diamondRank : Nat → Nat := fun n => if n = 0 then 0 else if n = 3 then 2 else 1

/-- A one-node cycle: the `value` input of the `MakeScalar` node is connected
to the node's own output. -/
def cycGraph : Graph :=
  { nodes := [(0, ⟨.MakeScalar, [("value", 0)], [("out", 100)]⟩)]
    inputs := [(0, ⟨.scalar 0⟩)]
    outputs := [(100, ⟨0⟩)]
    connections := [(0, 100)] }

/-- A graph with no nodes. -/
def emptyGraph : Graph := ⟨[], [], [], []⟩

/-- A malformed graph reaching the input resolver's `expect`: the `value`
input of node 1 is connected to output id 100, which the output arena says
node 2 owns — but node 2's declared `"out"` output is id 102, so evaluating
node 2 populates key 102 and key 100 stays absent. -/
def badGraph : Graph :=
  { nodes := [(1, ⟨.MakeScalar, [("value", 11)], [("out", 101)]⟩),
              (2, ⟨.MakeScalar, [("value", 12)], [("out", 102)]⟩)]
    inputs := [(11, ⟨.scalar 0⟩), (12, ⟨.scalar 7⟩)]
    outputs := [(100, ⟨2⟩), (101, ⟨1⟩), (102, ⟨2⟩)]
    connections := [(11, 100)] }

/-! ## The evaluation invariant

`Good g P Q nf c r` records what one evaluation step starting from cache `c`
guarantees about its result `r`: the cache only grows, and grows by exactly
the populated keys; populated keys were absent before and are populated at
most once; every populated key is the `"out"` key of a node satisfying `Q`;
every node whose evaluation began had an absent `"out"` key and satisfies `P`,
and no node is evaluated twice; on success every begun node ends populated;
and under the fuel bound `nf` the step does not run out of fuel. -/
structure Good (g : Graph) (P Q : Nat → Prop) (nf : Prop)
    (c : Cache) {α : Type} (r : EvalRes α) : Prop where
  mono : ∀ o, Cache.mem c o → Cache.mem r.cache o
  keys : ∀ o, Cache.mem r.cache o ↔ (Cache.mem c o ∨ o ∈ r.plog)
  pFresh : ∀ o ∈ r.plog, ¬ Cache.mem c o
  pNodup : r.plog.Nodup
  pOwn : ∀ o ∈ r.plog, ∃ m, g.outKey? m = some o ∧ Q m
  eKey : ∀ m ∈ r.elog, ∃ o, g.outKey? m = some o ∧ ¬ Cache.mem c o
  eNodup : r.elog.Nodup
  eP : ∀ m ∈ r.elog, P m
  okAll : ∀ v, r.out = Outcome.ok v →
    ∀ m ∈ r.elog, ∃ o, g.outKey? m = some o ∧ Cache.mem r.cache o
  noFuel : nf → r.out ≠ Outcome.fuelOut

/-- `Good` together with: on success the key `o₀` ends populated (used to
thread the final `populate_output` of a node body outwards). -/
def GoodP (g : Graph) (P Q : Nat → Prop) (nf : Prop) (c : Cache)
    {α : Type} (r : EvalRes α) (o₀ : Nat) : Prop :=
  Good g P Q nf c r ∧ ∀ v, r.out = Outcome.ok v → Cache.mem r.cache o₀

/-! ## Basic lemmas -/

theorem lookup_mem {α β : Type} [BEq α] [LawfulBEq α] :
    ∀ {l : List (α × β)} {a : α} {b : β}, List.lookup a l = some b → (a, b) ∈ l := by
  intro l
  induction l with
  | nil => intro a b h; simp [List.lookup] at h
  | cons kv t ih =>
    obtain ⟨k, v⟩ := kv
    intro a b h
    by_cases hak : a = k
    · subst hak
      simp [List.lookup] at h
      subst h
      exact List.mem_cons_self _ _
    · have hb : (a == k) = false := beq_eq_false_iff_ne.2 hak
      simp [List.lookup, hb] at h
      exact List.mem_cons_of_mem _ (ih h)

theorem Cache.not_mem_of_lookup_none {c : Cache} {o : Nat}
    (h : List.lookup o c = none) : ¬ Cache.mem c o := by
  simp [Cache.mem, Cache.memB, h]

theorem Cache.mem_of_lookup {c : Cache} {o : Nat} {v : MyValueType}
    (h : List.lookup o c = some v) : Cache.mem c o := by
  simp [Cache.mem, Cache.memB, h]

theorem Cache.not_mem_nil (o : Nat) : ¬ Cache.mem [] o := by
  simp [Cache.mem, Cache.memB, List.lookup]

theorem Cache.mem_cons {k : Nat} {v : MyValueType} {c : Cache} {o : Nat} :
    Cache.mem ((k, v) :: c) o ↔ (o = k ∨ Cache.mem c o) := by
  by_cases h : o = k
  · subst h; simp [Cache.mem, Cache.memB, List.lookup]
  · have hb : (o == k) = false := beq_eq_false_iff_ne.2 h
    simp [Cache.mem, Cache.memB, List.lookup, hb, h]

theorem wf_conn_key {g : Graph} {i o : Nat} {op : OutputParam} (hwf : WFp g)
    (hco : g.connection i = some o) (hop : g.output? o = some op) :
    g.outKey? op.node = some o := by
  rw [Graph.connection] at hco
  rw [Graph.output?] at hop
  exact hwf.1 (i, o) (lookup_mem hco) (o, op) (lookup_mem hop) rfl

theorem wf_node_key {g : Graph} {n : Nat} {nd : Node} (hwf : WFp g)
    (hnd : g.node? n = some nd) : ∃ o, g.outKey? n = some o := by
  have hm : (n, nd) ∈ g.nodes := by
    rw [Graph.node?] at hnd; exact lookup_mem hnd
  have hs := hwf.2.1 (n, nd) hm
  obtain ⟨o, ho⟩ := Option.isSome_iff_exists.1 hs
  refine ⟨o, ?_⟩
  rw [Graph.outKey?, hnd]
  simpa using ho

theorem wf_inj {g : Graph} {m m2 o : Nat} (hwf : WFp g)
    (h1 : g.outKey? m = some o) (h2 : g.outKey? m2 = some o) : m = m2 := by
  rw [Graph.outKey?] at h1 h2
  cases hn1 : g.node? m with
  | none => rw [hn1] at h1; simp at h1
  | some nd1 =>
    cases hn2 : g.node? m2 with
    | none => rw [hn2] at h2; simp at h2
    | some nd2 =>
      rw [hn1] at h1; rw [hn2] at h2
      simp at h1 h2
      have hm1 : (m, nd1) ∈ g.nodes := by rw [Graph.node?] at hn1; exact lookup_mem hn1
      have hm2 : (m2, nd2) ∈ g.nodes := by rw [Graph.node?] at hn2; exact lookup_mem hn2
      exact hwf.2.2 (m, nd1) hm1 (m2, nd2) hm2 (by rw [h1, h2]) (by rw [h1]; rfl)

theorem rk_lt {g : Graph} {rank : Nat → Nat} {n i o : Nat} {nd : Node}
    {pname : String} {op : OutputParam} (hrk : Rankedp g rank)
    (hnd : g.node? n = some nd) (hi : nd.get_input pname = some i)
    (hco : g.connection i = some o) (hop : g.output? o = some op) :
    rank op.node < rank n := by
  rw [Graph.node?] at hnd
  rw [Node.get_input] at hi
  rw [Graph.connection] at hco
  rw [Graph.output?] at hop
  exact hrk (n, nd) (lookup_mem hnd) (pname, i) (lookup_mem hi)
    (i, o) (lookup_mem hco) rfl (o, op) (lookup_mem hop) rfl

/-! ## Combinators for the invariant -/

theorem Good.mono_all {g : Graph} {P Q P2 Q2 : Nat → Prop} {nf nf2 : Prop}
    {c : Cache} {α : Type} {r : EvalRes α} (h : Good g P Q nf c r)
    (hP : ∀ m, P m → P2 m) (hQ : ∀ m, Q m → Q2 m) (hnf : nf2 → nf) :
    Good g P2 Q2 nf2 c r where
  mono := h.mono
  keys := h.keys
  pFresh := h.pFresh
  pNodup := h.pNodup
  pOwn := fun o ho => by
    rcases h.pOwn o ho with ⟨m, hk, hq⟩
    exact ⟨m, hk, hQ m hq⟩
  eKey := h.eKey
  eNodup := h.eNodup
  eP := fun m hm => hP m (h.eP m hm)
  okAll := h.okAll
  noFuel := fun hn => h.noFuel (hnf hn)

theorem statelessGood {g : Graph} {P Q : Nat → Prop} {nf : Prop} {c : Cache}
    {α : Type} (o : Outcome α) (h : o ≠ Outcome.fuelOut) :
    Good g P Q nf c ⟨o, c, [], []⟩ where
  mono := fun _ hm => hm
  keys := fun o2 => by simp
  pFresh := fun o2 ho2 => by simp at ho2
  pNodup := List.nodup_nil
  pOwn := fun o2 ho2 => by simp at ho2
  eKey := fun m hm => by simp at hm
  eNodup := List.nodup_nil
  eP := fun m hm => by simp at hm
  okAll := fun v _ m hm => by simp at hm
  noFuel := fun _ => h

theorem fuelOutGood {g : Graph} {P Q : Nat → Prop} {nf : Prop} {c : Cache}
    {α : Type} (h : nf → False) :
    Good g P Q nf c (⟨Outcome.fuelOut, c, [], []⟩ : EvalRes α) where
  mono := fun _ hm => hm
  keys := fun o2 => by simp
  pFresh := fun o2 ho2 => by simp at ho2
  pNodup := List.nodup_nil
  pOwn := fun o2 ho2 => by simp at ho2
  eKey := fun m hm => by simp at hm
  eNodup := List.nodup_nil
  eP := fun m hm => by simp at hm
  okAll := fun v _ m hm => by simp at hm
  noFuel := fun hn => absurd hn h

theorem seqGood {g : Graph} {P Q : Nat → Prop} {nf : Prop} {c : Cache}
    {α β : Type} {r1 : EvalRes α} {k : α → Cache → EvalRes β}
    (h1 : Good g P Q nf c r1)
    (h2 : ∀ a, r1.out = Outcome.ok a → Good g P Q nf r1.cache (k a r1.cache)) :
    Good g P Q nf c (andThen r1 k) := by
  cases ho : r1.out with
  | ok a =>
    have h2a := h2 a ho
    have he : andThen r1 k =
        ⟨(k a r1.cache).out, (k a r1.cache).cache,
         r1.plog ++ (k a r1.cache).plog, r1.elog ++ (k a r1.cache).elog⟩ := by
      simp only [andThen, ho]
    rw [he]
    constructor
    case mono => exact fun o hm => h2a.mono o (h1.mono o hm)
    case keys =>
      intro o
      constructor
      · intro hm
        rcases (h2a.keys o).1 hm with hc1 | hp2
        · rcases (h1.keys o).1 hc1 with hc | hp1
          · exact Or.inl hc
          · exact Or.inr (List.mem_append.2 (Or.inl hp1))
        · exact Or.inr (List.mem_append.2 (Or.inr hp2))
      · rintro (hc | hp)
        · exact h2a.mono o (h1.mono o hc)
        · rcases List.mem_append.1 hp with hp1 | hp2
          · exact h2a.mono o ((h1.keys o).2 (Or.inr hp1))
          · exact (h2a.keys o).2 (Or.inr hp2)
    case pFresh =>
      intro o hp hm
      rcases List.mem_append.1 hp with hp1 | hp2
      · exact h1.pFresh o hp1 hm
      · exact h2a.pFresh o hp2 (h1.mono o hm)
    case pNodup =>
      refine List.Nodup.append h1.pNodup h2a.pNodup ?_
      intro o hp1 hp2
      exact h2a.pFresh o hp2 ((h1.keys o).2 (Or.inr hp1))
    case pOwn =>
      intro o hp
      rcases List.mem_append.1 hp with hp1 | hp2
      · exact h1.pOwn o hp1
      · exact h2a.pOwn o hp2
    case eKey =>
      intro m hm
      rcases List.mem_append.1 hm with hm1 | hm2
      · exact h1.eKey m hm1
      · rcases h2a.eKey m hm2 with ⟨o, hko, hnm⟩
        exact ⟨o, hko, fun hmem => hnm (h1.mono o hmem)⟩
    case eNodup =>
      refine List.Nodup.append h1.eNodup h2a.eNodup ?_
      intro m hm1 hm2
      rcases h1.okAll a ho m hm1 with ⟨o, hko, hmem⟩
      rcases h2a.eKey m hm2 with ⟨o2, hko2, hnm⟩
      rw [hko] at hko2
      cases Option.some_inj.1 hko2
      exact hnm hmem
    case eP =>
      intro m hm
      rcases List.mem_append.1 hm with hm1 | hm2
      · exact h1.eP m hm1
      · exact h2a.eP m hm2
    case okAll =>
      intro v hv m hm
      rcases List.mem_append.1 hm with hm1 | hm2
      · rcases h1.okAll a ho m hm1 with ⟨o, hko, hmem⟩
        exact ⟨o, hko, h2a.mono o hmem⟩
      · exact h2a.okAll v hv m hm2
    case noFuel => exact fun hn => h2a.noFuel hn
  | err msg =>
    have he : andThen r1 k = ⟨Outcome.err msg, r1.cache, r1.plog, r1.elog⟩ := by
      simp only [andThen, ho]
    rw [he]
    exact { mono := h1.mono, keys := h1.keys, pFresh := h1.pFresh,
            pNodup := h1.pNodup, pOwn := h1.pOwn, eKey := h1.eKey,
            eNodup := h1.eNodup, eP := h1.eP,
            okAll := fun v hv => by simp at hv,
            noFuel := fun _ => by simp }
  | panic msg =>
    have he : andThen r1 k = ⟨Outcome.panic msg, r1.cache, r1.plog, r1.elog⟩ := by
      simp only [andThen, ho]
    rw [he]
    exact { mono := h1.mono, keys := h1.keys, pFresh := h1.pFresh,
            pNodup := h1.pNodup, pOwn := h1.pOwn, eKey := h1.eKey,
            eNodup := h1.eNodup, eP := h1.eP,
            okAll := fun v hv => by simp at hv,
            noFuel := fun _ => by simp }
  | fuelOut =>
    have he : andThen r1 k = ⟨Outcome.fuelOut, r1.cache, r1.plog, r1.elog⟩ := by
      simp only [andThen, ho]
    rw [he]
    exact { mono := h1.mono, keys := h1.keys, pFresh := h1.pFresh,
            pNodup := h1.pNodup, pOwn := h1.pOwn, eKey := h1.eKey,
            eNodup := h1.eNodup, eP := h1.eP,
            okAll := fun v hv => by simp at hv,
            noFuel := fun hn => absurd ho (h1.noFuel hn) }

theorem seqGoodP {g : Graph} {P Q : Nat → Prop} {nf : Prop} {c : Cache}
    {α β : Type} {r1 : EvalRes α} {k : α → Cache → EvalRes β} {o₀ : Nat}
    (h1 : Good g P Q nf c r1)
    (h2 : ∀ a, r1.out = Outcome.ok a → GoodP g P Q nf r1.cache (k a r1.cache) o₀) :
    GoodP g P Q nf c (andThen r1 k) o₀ := by
  refine ⟨seqGood h1 (fun a ha => (h2 a ha).1), ?_⟩
  intro v hv
  cases ho : r1.out with
  | ok a =>
    have he : andThen r1 k =
        ⟨(k a r1.cache).out, (k a r1.cache).cache,
         r1.plog ++ (k a r1.cache).plog, r1.elog ++ (k a r1.cache).elog⟩ := by
      simp only [andThen, ho]
    rw [he] at hv ⊢
    exact (h2 a ho).2 v hv
  | err msg =>
    have he : andThen r1 k = ⟨Outcome.err msg, r1.cache, r1.plog, r1.elog⟩ := by
      simp only [andThen, ho]
    rw [he] at hv
    exact Outcome.noConfusion hv
  | panic msg =>
    have he : andThen r1 k = ⟨Outcome.panic msg, r1.cache, r1.plog, r1.elog⟩ := by
      simp only [andThen, ho]
    rw [he] at hv
    exact Outcome.noConfusion hv
  | fuelOut =>
    have he : andThen r1 k = ⟨Outcome.fuelOut, r1.cache, r1.plog, r1.elog⟩ := by
      simp only [andThen, ho]
    rw [he] at hv
    exact Outcome.noConfusion hv

theorem popGP {g : Graph} {P Q : Nat → Prop} {nf : Prop} {c : Cache}
    {n o₀ : Nat} {nd : Node} {v : MyValueType}
    (hnd : g.node? n = some nd) (ho : nd.get_output "out" = some o₀)
    (hfresh : ¬ Cache.mem c o₀) (hQ : Q n) :
    GoodP g P Q nf c (populate_output g n "out" v c) o₀ := by
  have he : populate_output g n "out" v c = ⟨Outcome.ok v, (o₀, v) :: c, [o₀], []⟩ := by
    simp only [populate_output, hnd, ho]
  rw [he]
  refine ⟨?_, ?_⟩
  · constructor
    case mono => exact fun o2 hm => Cache.mem_cons.2 (Or.inr hm)
    case keys =>
      intro o2
      rw [Cache.mem_cons]
      simp [or_comm]
    case pFresh =>
      intro o2 ho2
      simp at ho2
      subst ho2
      exact hfresh
    case pNodup => simp
    case pOwn =>
      intro o2 ho2
      simp at ho2
      subst ho2
      refine ⟨n, ?_, hQ⟩
      rw [Graph.outKey?, hnd]
      simpa using ho
    case eKey => intro m hm; simp at hm
    case eNodup => simp
    case eP => intro m hm; simp at hm
    case okAll => intro v2 _ m hm; simp at hm
    case noFuel => intro _; simp
  · intro v2 _
    exact Cache.mem_cons.2 (Or.inl rfl)

theorem withElogGood {g : Graph} {rank : Nat → Nat} {n o₀ : Nat} {nf : Prop}
    {c : Cache} {α : Type} {r : EvalRes α}
    (hkey : g.outKey? n = some o₀) (hfresh : ¬ Cache.mem c o₀)
    (h : Good g (fun m => rank m < rank n) (fun m => rank m ≤ rank n) nf c r)
    (hok : ∀ v, r.out = Outcome.ok v → Cache.mem r.cache o₀) :
    Good g (fun m => rank m ≤ rank n) (fun m => rank m ≤ rank n) nf c (withElog n r) := by
  constructor
  case mono => exact h.mono
  case keys => exact h.keys
  case pFresh => exact h.pFresh
  case pNodup => exact h.pNodup
  case pOwn => exact h.pOwn
  case eKey =>
    intro m hm
    rcases List.mem_cons.1 hm with hm1 | hm2
    · subst hm1; exact ⟨o₀, hkey, hfresh⟩
    · exact h.eKey m hm2
  case eNodup =>
    refine List.nodup_cons.2 ⟨?_, h.eNodup⟩
    intro hin
    exact absurd (h.eP n hin) (Nat.lt_irrefl _)
  case eP =>
    intro m hm
    rcases List.mem_cons.1 hm with hm1 | hm2
    · subst hm1; exact Nat.le_refl _
    · exact Nat.le_of_lt (h.eP m hm2)
  case okAll =>
    intro v hv m hm
    rcases List.mem_cons.1 hm with hm1 | hm2
    · subst hm1; exact ⟨o₀, hkey, hok v hv⟩
    · exact h.okAll v hv m hm2
  case noFuel => exact h.noFuel

/-- `withElogGood` packaged for a `GoodP` body. -/
theorem withElogGP {g : Graph} {rank : Nat → Nat} {n o₀ : Nat} {nf : Prop}
    {c : Cache} {α : Type} {r : EvalRes α}
    (hkey : g.outKey? n = some o₀) (hfresh : ¬ Cache.mem c o₀)
    (h : GoodP g (fun m => rank m < rank n) (fun m => rank m ≤ rank n) nf c r o₀) :
    Good g (fun m => rank m ≤ rank n) (fun m => rank m ≤ rank n) nf c (withElog n r) :=
  withElogGood hkey hfresh h.1 h.2

/-- Freshness of a node's own output key is preserved by any step whose
populated keys are owned by nodes of smaller rank. -/
theorem freshAfter {g : Graph} {rank : Nat → Nat} {n o₀ : Nat} {nf : Prop}
    {c : Cache} {α : Type} {r : EvalRes α} (hwf : WFp g)
    (h : Good g (fun m => rank m < rank n) (fun m => rank m < rank n) nf c r)
    (hkey : g.outKey? n = some o₀) (hfresh : ¬ Cache.mem c o₀) :
    ¬ Cache.mem r.cache o₀ := by
  intro hm
  rcases (h.keys o₀).1 hm with hc | hp
  · exact hfresh hc
  · rcases h.pOwn o₀ hp with ⟨m, hk, hq⟩
    have := wf_inj hwf hk hkey
    subst this
    exact absurd hq (Nat.lt_irrefl _)

/-- The input resolver satisfies the invariant: every node it evaluates is a
strict-rank-descendant of the resolving node, assuming the recursive
node-evaluation (`evalN`) satisfies the invariant on fresh keys. -/
theorem inputGood {g : Graph} {rank : Nat → Nat} {fuel : Nat}
    {evalN : Nat → Cache → EvalRes MyValueType}
    (hwf : WFp g) (hrk : Rankedp g rank)
    (H : ∀ u c2, (∀ o, g.outKey? u = some o → ¬ Cache.mem c2 o) →
      Good g (fun m => rank m ≤ rank u) (fun m => rank m ≤ rank u)
        (rank u < fuel) c2 (evalN u c2)) :
    ∀ n pname c, Good g (fun m => rank m < rank n) (fun m => rank m < rank n)
      (rank n ≤ fuel) c (inputBody g evalN n pname c) := by
  intro n pname c
  unfold inputBody
  split
  next hnd => exact statelessGood (Outcome.panic "invalid NodeId") (by simp)
  next nd hnd =>
    split
    next hi => exact statelessGood (Outcome.err ("UnknownPort: " ++ pname)) (by simp)
    next i hi =>
      split
      next o hco =>
        split
        next v hlk => exact statelessGood (Outcome.ok v) (by simp)
        next hlk =>
          split
          next hop => exact statelessGood (Outcome.panic "invalid OutputId") (by simp)
          next op hop =>
            have hkey : g.outKey? op.node = some o := wf_conn_key hwf hco hop
            have hlt : rank op.node < rank n := rk_lt hrk hnd hi hco hop
            have hfr : ∀ o2, g.outKey? op.node = some o2 → ¬ Cache.mem c o2 := by
              intro o2 h2
              rw [hkey] at h2
              cases Option.some_inj.1 h2
              exact Cache.not_mem_of_lookup_none hlk
            have hG := (H op.node c hfr).mono_all
              (fun m hm => Nat.lt_of_le_of_lt hm hlt)
              (fun m hm => Nat.lt_of_le_of_lt hm hlt)
              (fun hn => Nat.lt_of_lt_of_le hlt hn)
            refine seqGood hG ?_
            intro a ha
            split
            next v hlk2 => exact statelessGood (Outcome.ok v) (by simp)
            next hlk2 =>
              exact statelessGood (Outcome.panic "Cache should be populated") (by simp)
      next hco =>
        split
        next hp => exact statelessGood (Outcome.panic "invalid InputId") (by simp)
        next p hp => exact statelessGood (Outcome.ok p.value) (by simp)

theorem ofExcept_cache {α : Type} (e : Except String α) (c : Cache) :
    (ofExcept e c).cache = c := by
  cases e <;> rfl

theorem unwrapE_cache {α : Type} (e : Except String α) (c : Cache) :
    (unwrapE e c).cache = c := by
  cases e <;> rfl

theorem ofExceptGood {g : Graph} {P Q : Nat → Prop} {nf : Prop} {c : Cache}
    {α : Type} (e : Except String α) : Good g P Q nf c (ofExcept e c) := by
  cases e with
  | ok a => exact statelessGood (Outcome.ok a) (by simp)
  | error m => exact statelessGood (Outcome.err m) (by simp)

theorem unwrapEGood {g : Graph} {P Q : Nat → Prop} {nf : Prop} {c : Cache}
    {α : Type} (e : Except String α) : Good g P Q nf c (unwrapE e c) := by
  cases e with
  | ok a => exact statelessGood (Outcome.ok a) (by simp)
  | error m => exact statelessGood (Outcome.panic ("called unwrap on an Err value: " ++ m)) (by simp)

theorem inputCastGood {g : Graph} {rank : Nat → Nat} {fuel : Nat}
    {evalN : Nat → Cache → EvalRes MyValueType}
    (hwf : WFp g) (hrk : Rankedp g rank)
    (H : ∀ u c2, (∀ o, g.outKey? u = some o → ¬ Cache.mem c2 o) →
      Good g (fun m => rank m ≤ rank u) (fun m => rank m ≤ rank u)
        (rank u < fuel) c2 (evalN u c2)) :
    ∀ n pname c {β : Type} (f : MyValueType → Except String β),
      Good g (fun m => rank m < rank n) (fun m => rank m < rank n)
        (rank n ≤ fuel) c (inputCast g evalN n pname f c) := by
  intro n pname c β f
  unfold inputCast
  refine seqGood (inputGood hwf hrk H n pname c) ?_
  intro v hv
  exact ofExceptGood (f v)

/-- The node evaluator's dispatch body satisfies the invariant when its own
output key is absent from the starting cache, assuming the recursive
node-evaluation satisfies it. -/
theorem nodeGood {g : Graph} {rank : Nat → Nat} {fuel : Nat}
    (fs : String → Except String DataFrame)
    {evalN : Nat → Cache → EvalRes MyValueType}
    (hwf : WFp g) (hrk : Rankedp g rank)
    (H : ∀ u c2, (∀ o, g.outKey? u = some o → ¬ Cache.mem c2 o) →
      Good g (fun m => rank m ≤ rank u) (fun m => rank m ≤ rank u)
        (rank u < fuel) c2 (evalN u c2)) :
    ∀ n c, (∀ o, g.outKey? n = some o → ¬ Cache.mem c o) →
      Good g (fun m => rank m ≤ rank n) (fun m => rank m ≤ rank n)
        (rank n ≤ fuel) c (nodeBody g fs evalN n c) := by
  intro n c hfresh0
  unfold nodeBody
  split
  next hnd => exact statelessGood (Outcome.panic "invalid NodeId") (by simp)
  next nd hnd =>
    obtain ⟨o₀, hkey⟩ := wf_node_key hwf hnd
    have hfresh : ¬ Cache.mem c o₀ := hfresh0 o₀ hkey
    have hout : nd.get_output "out" = some o₀ := by
      rw [Graph.outKey?, hnd] at hkey
      simpa using hkey
    have hcast := inputCastGood hwf hrk H
    have h2chain : ∀ (p1 p2 : String) {β γ : Type} (f1 : MyValueType → Except String β)
        (f2 : MyValueType → Except String γ) (val : β → γ → MyValueType),
        GoodP g (fun m => rank m < rank n) (fun m => rank m ≤ rank n) (rank n ≤ fuel) c
          (andThen (inputCast g evalN n p1 f1 c) fun a c1 =>
            andThen (inputCast g evalN n p2 f2 c1) fun b c2 =>
            populate_output g n "out" (val a b) c2) o₀ := by
      intro p1 p2 β γ f1 f2 val
      have h1 := hcast n p1 c f1
      refine seqGoodP (h1.mono_all (fun m hm => hm) (fun m hm => Nat.le_of_lt hm) (fun x => x)) ?_
      intro a ha
      have h2 := hcast n p2 (inputCast g evalN n p1 f1 c).cache f2
      refine seqGoodP (h2.mono_all (fun m hm => hm) (fun m hm => Nat.le_of_lt hm) (fun x => x)) ?_
      intro b hb
      exact popGP hnd hout (freshAfter hwf h2 hkey (freshAfter hwf h1 hkey hfresh)) (Nat.le_refl _)
    have h1chain : ∀ (p1 : String) {β : Type} (f1 : MyValueType → Except String β)
        (val : β → MyValueType),
        GoodP g (fun m => rank m < rank n) (fun m => rank m ≤ rank n) (rank n ≤ fuel) c
          (andThen (inputCast g evalN n p1 f1 c) fun a c1 =>
            populate_output g n "out" (val a) c1) o₀ := by
      intro p1 β f1 val
      have h1 := hcast n p1 c f1
      refine seqGoodP (h1.mono_all (fun m hm => hm) (fun m hm => Nat.le_of_lt hm) (fun x => x)) ?_
      intro a ha
      exact popGP hnd hout (freshAfter hwf h1 hkey hfresh) (Nat.le_refl _)
    split
    · exact withElogGP hkey hfresh (h2chain "A" "B" MyValueType.try_to_scalar
        MyValueType.try_to_scalar (fun a b => MyValueType.scalar (a + b)))
    · exact withElogGP hkey hfresh (h2chain "A" "B" MyValueType.try_to_scalar
        MyValueType.try_to_scalar (fun a b => MyValueType.scalar (a - b)))
    · exact withElogGP hkey hfresh (h2chain "scalar" "vector" MyValueType.try_to_scalar
        MyValueType.try_to_vec2 (fun s v => MyValueType.vec2 (v.1 * s) (v.2 * s)))
    · exact withElogGP hkey hfresh (h2chain "v1" "v2" MyValueType.try_to_vec2
        MyValueType.try_to_vec2 (fun v1 v2 => MyValueType.vec2 (v1.1 + v2.1) (v1.2 + v2.2)))
    · exact withElogGP hkey hfresh (h2chain "v1" "v2" MyValueType.try_to_vec2
        MyValueType.try_to_vec2 (fun v1 v2 => MyValueType.vec2 (v1.1 - v2.1) (v1.2 - v2.2)))
    · exact withElogGP hkey hfresh (h2chain "x" "y" MyValueType.try_to_scalar
        MyValueType.try_to_scalar (fun x y => MyValueType.vec2 x y))
    · exact withElogGP hkey hfresh (h1chain "value" MyValueType.try_to_scalar
        (fun v => MyValueType.scalar v))
    · -- LoadCSV
      refine withElogGP hkey hfresh ?_
      have h1 := hcast n "path" c MyValueType.try_to_string
      refine seqGoodP (h1.mono_all (fun m hm => hm) (fun m hm => Nat.le_of_lt hm) (fun x => x)) ?_
      intro path hp
      refine seqGoodP (ofExceptGood (fs path)) ?_
      intro df hdf
      simp only [ofExcept_cache]
      exact popGP hnd hout (freshAfter hwf h1 hkey hfresh) (Nat.le_refl _)
    · exact withElogGP hkey hfresh (h1chain "df" MyValueType.try_to_dataframe
        (fun df => MyValueType.scalar (df.height : Int)))
    · -- SelectColumn
      refine withElogGP hkey hfresh ?_
      have h1 := hcast n "df" c MyValueType.try_to_dataframe
      refine seqGoodP (h1.mono_all (fun m hm => hm) (fun m hm => Nat.le_of_lt hm) (fun x => x)) ?_
      intro df hdf
      have h2 := hcast n "column"
        (inputCast g evalN n "df" MyValueType.try_to_dataframe c).cache MyValueType.try_to_string
      refine seqGoodP (h2.mono_all (fun m hm => hm) (fun m hm => Nat.le_of_lt hm) (fun x => x)) ?_
      intro cname hcn
      split
      · refine seqGoodP (unwrapEGood (df.column cname)) ?_
        intro sres hs
        simp only [unwrapE_cache]
        exact popGP hnd hout (freshAfter hwf h2 hkey (freshAfter hwf h1 hkey hfresh)) (Nat.le_refl _)
      · exact popGP hnd hout (freshAfter hwf h2 hkey (freshAfter hwf h1 hkey hfresh)) (Nat.le_refl _)
    · -- SimpleFilter
      refine withElogGP hkey hfresh ?_
      have h1 := hcast n "df" c MyValueType.try_to_series
      refine seqGoodP (h1.mono_all (fun m hm => hm) (fun m hm => Nat.le_of_lt hm) (fun x => x)) ?_
      intro sv hs
      have h2 := hcast n "min"
        (inputCast g evalN n "df" MyValueType.try_to_series c).cache MyValueType.try_to_scalar
      refine seqGoodP (h2.mono_all (fun m hm => hm) (fun m hm => Nat.le_of_lt hm) (fun x => x)) ?_
      intro mn hmn
      have h3 := hcast n "max"
        (inputCast g evalN n "min" MyValueType.try_to_scalar
          (inputCast g evalN n "df" MyValueType.try_to_series c).cache).cache
        MyValueType.try_to_scalar
      refine seqGoodP (h3.mono_all (fun m hm => hm) (fun m hm => Nat.le_of_lt hm) (fun x => x)) ?_
      intro mx hmx
      refine seqGoodP (unwrapEGood (sv.gt_eq mn)) ?_
      intro m1 hm1
      simp only [unwrapE_cache]
      refine seqGoodP (unwrapEGood (sv.filterMask m1)) ?_
      intro s1 hs1
      simp only [unwrapE_cache]
      refine seqGoodP (unwrapEGood (s1.lt_eq mx)) ?_
      intro m2 hm2
      simp only [unwrapE_cache]
      refine seqGoodP (unwrapEGood (s1.filterMask m2)) ?_
      intro s2 hs2
      simp only [unwrapE_cache]
      exact popGP hnd hout
        (freshAfter hwf h3 hkey (freshAfter hwf h2 hkey (freshAfter hwf h1 hkey hfresh)))
        (Nat.le_refl _)

/-- Master invariant for `evaluate_node`, by induction on the fuel: starting
from a cache where the node's output key is absent, every run populates each
key at most once (and only fresh keys), begins each node's evaluation at most
once, only touches nodes of rank at most the requested node's, and does not
run out of fuel when the fuel exceeds the requested node's rank. -/
theorem evalNodeGood {g : Graph} {rank : Nat → Nat}
    (fs : String → Except String DataFrame)
    (hwf : WFp g) (hrk : Rankedp g rank) :
    ∀ fuel u c, (∀ o, g.outKey? u = some o → ¬ Cache.mem c o) →
      Good g (fun m => rank m ≤ rank u) (fun m => rank m ≤ rank u)
        (rank u < fuel) c (evaluate_node g fs fuel u c) := by
  intro fuel
  induction fuel with
  | zero =>
    intro u c hfr
    exact fuelOutGood (fun hn => absurd hn (Nat.not_lt_zero _))
  | succ fuel ih =>
    intro u c hfr
    have hng := nodeGood fs hwf hrk (fun u2 c2 hf2 => ih u2 c2 hf2) u c hfr
    exact hng.mono_all (fun m hm => hm) (fun m hm => hm) (fun hn => Nat.lt_succ_iff.1 hn)

/-! ## Run lemmas: symbolic evaluation of the concrete graphs -/

theorem maskKeep_map {α : Type} (f : α → Bool) :
    ∀ xs : List α, maskKeep xs (xs.map f) = xs.filter f := by
  intro xs
  induction xs with
  | nil => rfl
  | cons x t ih =>
    cases hfx : f x <;>
      simp [maskKeep, List.zip_cons_cons, hfx, List.filter_cons] at ih ⊢ <;>
      exact ih

theorem twoPassFilter (mn mx : Int) (xs : List (Option Int)) :
    maskKeep
      (maskKeep xs (xs.map fun o => match o with | some q => decide (mn ≤ q) | none => false))
      ((maskKeep xs (xs.map fun o => match o with | some q => decide (mn ≤ q) | none => false)).map
        fun o => match o with | some q => decide (q ≤ mx) | none => false)
    = xs.filter (specFilterKeep mn mx) := by
  rw [maskKeep_map, maskKeep_map, List.filter_filter]
  refine List.filter_congr ?_
  intro o _
  cases o with
  | none => rfl
  | some q => simp [specFilterKeep, Bool.and_comm]

theorem simpleFilter_run (name : String) (xs : List (Option Int)) (mn mx : Int)
    (fs : String → Except String DataFrame) (fuel : Nat) :
    evaluate_node (filterGraph name (.nums xs) mn mx) fs (fuel + 1) 0 [] =
      ⟨.ok (.series ⟨name, .nums (xs.filter (specFilterKeep mn mx))⟩),
       [(100, .series ⟨name, .nums (xs.filter (specFilterKeep mn mx))⟩)], [100], [0]⟩ := by
  rw [← twoPassFilter mn mx xs]
  simp [evaluate_node, nodeBody, inputBody, inputCast, populate_output, andThen,
    withElog, ofExcept, unwrapE, filterGraph, Graph.node?, Graph.input?, Graph.output?,
    Graph.connection, Node.get_input, Node.get_output, List.lookup,
    MyValueType.try_to_scalar, MyValueType.try_to_series,
    Series.gt_eq, Series.lt_eq, Series.filterMask]

theorem findIdx?_none_iff_find?_none {α : Type} (p : α → Bool) (l : List α) :
    l.findIdx? p = none ↔ l.find? p = none := by
  rw [List.findIdx?_eq_none_iff, List.find?_eq_none]
  constructor
  · intro h x hx; simp [h x hx]
  · intro h x hx; simpa using h x hx

theorem selectColumn_run (cols : List Series) (cname : String)
    (fs : String → Except String DataFrame) (fuel : Nat) :
    evaluate_node (selectGraph cols cname) fs (fuel + 1) 0 [] =
      (match cols.find? (fun s => s.name == cname) with
       | some s =>
         ⟨.ok (.series s), [(100, .series s)], [100], [0]⟩
       | none =>
         ⟨.ok (.series ⟨"empty", .nums []⟩),
          [(100, .series ⟨"empty", .nums []⟩)], [100], [0]⟩) := by
  cases hf : cols.find? (fun s => s.name == cname) with
  | none =>
    have hidx : (⟨cols⟩ : DataFrame).get_column_index cname = none := by
      rw [DataFrame.get_column_index, findIdx?_none_iff_find?_none]
      exact hf
    simp [evaluate_node, nodeBody, inputBody, inputCast, populate_output, andThen,
      withElog, ofExcept, unwrapE, selectGraph, Graph.node?, Graph.input?, Graph.output?,
      Graph.connection, Node.get_input, Node.get_output, List.lookup,
      MyValueType.try_to_string, MyValueType.try_to_dataframe, hidx]
  | some s =>
    have hidx : ∃ i, (⟨cols⟩ : DataFrame).get_column_index cname = some i := by
      rw [DataFrame.get_column_index]
      cases hx : cols.findIdx? (fun s2 => s2.name == cname) with
      | some i => exact ⟨i, rfl⟩
      | none =>
        rw [findIdx?_none_iff_find?_none] at hx
        rw [hx] at hf
        exact Option.noConfusion hf
    obtain ⟨i, hidx⟩ := hidx
    have hcol : (⟨cols⟩ : DataFrame).column cname = .ok s := by
      rw [DataFrame.column]
      simp [hf]
    simp [evaluate_node, nodeBody, inputBody, inputCast, populate_output, andThen,
      withElog, ofExcept, unwrapE, selectGraph, Graph.node?, Graph.input?, Graph.output?,
      Graph.connection, Node.get_input, Node.get_output, List.lookup,
      MyValueType.try_to_string, MyValueType.try_to_dataframe, hidx, hcol]

theorem evaluate_input_unconnected {g : Graph} {fs : String → Except String DataFrame}
    {fuel n : Nat} {pname : String} {c : Cache} {nd : Node} {i : Nat} {p : InputParam}
    (hnd : g.node? n = some nd) (hi : nd.get_input pname = some i)
    (hco : g.connection i = none) (hp : g.input? i = some p) :
    evaluate_input g fs fuel n pname c = ⟨.ok p.value, c, [], []⟩ := by
  unfold evaluate_input inputBody
  simp [hnd, hi, hco, hp]

theorem evaluate_input_hit {g : Graph} {fs : String → Except String DataFrame}
    {fuel n : Nat} {pname : String} {c : Cache} {nd : Node} {i o : Nat} {v : MyValueType}
    (hnd : g.node? n = some nd) (hi : nd.get_input pname = some i)
    (hco : g.connection i = some o) (hlk : List.lookup o c = some v) :
    evaluate_input g fs fuel n pname c = ⟨.ok v, c, [], []⟩ := by
  unfold evaluate_input inputBody
  simp [hnd, hi, hco, hlk]

theorem evaluate_input_expect_panic {g : Graph} {fs : String → Except String DataFrame}
    {fuel n : Nat} {pname : String} {c : Cache} {nd : Node} {i o : Nat}
    {op : OutputParam} {v : MyValueType}
    (hnd : g.node? n = some nd) (hi : nd.get_input pname = some i)
    (hco : g.connection i = some o) (hmiss : List.lookup o c = none)
    (hop : g.output? o = some op)
    (hok : (evaluate_node g fs fuel op.node c).out = Outcome.ok v)
    (hmiss2 : List.lookup o (evaluate_node g fs fuel op.node c).cache = none) :
    evaluate_input g fs fuel n pname c =
      ⟨.panic "Cache should be populated",
       (evaluate_node g fs fuel op.node c).cache,
       (evaluate_node g fs fuel op.node c).plog,
       (evaluate_node g fs fuel op.node c).elog⟩ := by
  unfold evaluate_input inputBody
  simp [hnd, hi, hco, hmiss, hop, andThen, hok, hmiss2, evalPanic]

theorem cyc_fuelOut (fs : String → Except String DataFrame) :
    ∀ fuel c, List.lookup 100 c = none →
      (evaluate_node cycGraph fs fuel 0 c).out = Outcome.fuelOut := by
  intro fuel
  induction fuel with
  | zero => intro c hmiss; rfl
  | succ fuel ih =>
    intro c hmiss
    have hrec := ih c hmiss
    have h1 : Graph.node? cycGraph 0 =
        some ⟨.MakeScalar, [("value", 0)], [("out", 100)]⟩ := rfl
    have h2 : Node.get_input ⟨.MakeScalar, [("value", 0)], [("out", 100)]⟩ "value" =
        some 0 := rfl
    have h3 : Graph.connection cycGraph 0 = some 100 := rfl
    have h4 : Graph.output? cycGraph 100 = some ⟨0⟩ := rfl
    simp [evaluate_node, nodeBody, inputBody, inputCast, andThen,
      withElog, h1, h2, h3, h4, hmiss, hrec]

/-! ## The claims -/

/-- C1: at-most-once evaluation — for every well-formed acyclic graph and
every starting node, within one pass from an empty shared cache, each
output-port cache key is populated at most once and each node's evaluation
begins at most once (so the upstream node behind a fan-out is computed exactly
once), and a cache hit in the input resolver returns the stored value with no
state change and no re-evaluation. -/
theorem C1_at_most_once (g : Graph) (rank : Nat → Nat)
    (fs : String → Except String DataFrame) (n fuel : Nat)
    (hwf : WFp g) (hrk : Rankedp g rank) :
    (∀ o, ((evaluate_node g fs fuel n []).plog.count o) ≤ 1) ∧
    (∀ m, ((evaluate_node g fs fuel n []).elog.count m) ≤ 1) ∧
    (∀ fuel2 n2 pname c o v nd i, g.node? n2 = some nd →
      nd.get_input pname = some i → g.connection i = some o →
      List.lookup o c = some v →
      evaluate_input g fs fuel2 n2 pname c = ⟨.ok v, c, [], []⟩) := by
  have hg := evalNodeGood fs hwf hrk fuel n [] (fun o ho => Cache.not_mem_nil o)
  refine ⟨?_, ?_, ?_⟩
  · exact fun o => List.nodup_iff_count_le_one.1 hg.pNodup o
  · exact fun m => List.nodup_iff_count_le_one.1 hg.eNodup m
  · intro fuel2 n2 pname c o v nd i hnd hi hco hlk
    exact evaluate_input_hit hnd hi hco hlk

/-- Witness for C1: on the diamond graph the shared upstream node 0 is
evaluated exactly once during the evaluation of the root node 3, every cache
key is populated at most once, and a cache hit returns the stored value with
no re-evaluation. -/
theorem C1_at_most_once_witness :
    (evaluate_node diamondGraph fsNone 10 3 []).plog.count 100 ≤ 1 ∧
    (evaluate_node diamondGraph fsNone 10 3 []).elog.count 0 ≤ 1 ∧
    (evaluate_node diamondGraph fsNone 10 3 []).elog.count 0 = 1 ∧
    evaluate_input diamondGraph fsNone 5 2 "A" [(100, .scalar 5)] =
      ⟨.ok (.scalar 5), [(100, .scalar 5)], [], []⟩ := by
  have h := C1_at_most_once diamondGraph diamondRank fsNone 3 10 (by decide) (by decide)
  refine ⟨h.1 100, h.2.1 0, by decide, ?_⟩
  exact h.2.2 5 2 "A" [(100, MyValueType.scalar 5)] 100 (MyValueType.scalar 5)
    ⟨.AddScalar, [("A", 20), ("B", 21)], [("out", 102)]⟩ 20
    (by decide) (by decide) (by decide) (by decide)

/-- C2 counterexample: on `badGraph` the input resolver reaches the
still-absent-after-evaluation branch and terminates with the panic
`expect("Cache should be populated")`, not with an error result returned to
the caller as the claim states. -/
theorem C2_counterexample :
    (evaluate_input badGraph fsNone 4 1 "value" []).out =
      Outcome.panic "Cache should be populated" ∧
    (evaluate_input badGraph fsNone 4 1 "value" []).out ≠
      Outcome.err "CacheInvariantViolated" := by
  exact ⟨by decide, by decide⟩

/-- C2 (amended): when an input port is connected, its cache entry is absent,
recursive evaluation of the owning node of the connected output returns `Ok`,
and the entry is still absent, the input resolver panics with
`expect("Cache should be populated")` (it does not return an error result). -/
theorem C2_expect_panics {g : Graph} {fs : String → Except String DataFrame}
    {fuel n : Nat} {pname : String} {c : Cache} {nd : Node} {i o : Nat}
    {op : OutputParam}
    (hnd : g.node? n = some nd) (hi : nd.get_input pname = some i)
    (hco : g.connection i = some o) (hmiss : List.lookup o c = none)
    (hop : g.output? o = some op)
    (hok : ∃ v, (evaluate_node g fs fuel op.node c).out = Outcome.ok v)
    (hmiss2 : List.lookup o (evaluate_node g fs fuel op.node c).cache = none) :
    evaluate_input g fs fuel n pname c =
      ⟨.panic "Cache should be populated",
       (evaluate_node g fs fuel op.node c).cache,
       (evaluate_node g fs fuel op.node c).plog,
       (evaluate_node g fs fuel op.node c).elog⟩ := by
  obtain ⟨v, hv⟩ := hok
  exact evaluate_input_expect_panic hnd hi hco hmiss hop hv hmiss2

/-- Witness for C2 (amended), at `badGraph`. -/
theorem C2_expect_panics_witness :
    evaluate_input badGraph fsNone 4 1 "value" [] =
      ⟨.panic "Cache should be populated",
       (evaluate_node badGraph fsNone 4 2 []).cache,
       (evaluate_node badGraph fsNone 4 2 []).plog,
       (evaluate_node badGraph fsNone 4 2 []).elog⟩ :=
  C2_expect_panics
    (show Graph.node? badGraph 1 = some ⟨.MakeScalar, [("value", 11)], [("out", 101)]⟩
      by decide)
    (show Node.get_input ⟨.MakeScalar, [("value", 11)], [("out", 101)]⟩ "value" = some 11
      by decide)
    (show Graph.connection badGraph 11 = some 100 by decide)
    (show List.lookup 100 ([] : Cache) = none by decide)
    (show Graph.output? badGraph 100 = some ⟨2⟩ by decide)
    ⟨MyValueType.scalar 7, by decide⟩
    (by decide)

/-- C3 counterexample: the source stores scalar values in an `f32`
(32-bit IEEE single precision), not the spec's `float64`. -/
theorem C3_counterexample : scalarFloatBits ≠ specScalarFloatBits := by decide

/-- C3 (amended): every scalar in the value model is an IEEE
single-precision float32 (`f32`, 32-bit, as are both vector components), and
the evaluator's scalar arithmetic is the plain carrier arithmetic with no
extra overflow or NaN special-casing: AddScalar computes `a + b`,
SubtractScalar `a - b`, VectorTimesScalar scales componentwise, and
MakeVector packs its inputs unchanged. -/
theorem C3_float32_arithmetic :
    scalarFloatBits = 32 ∧ vec2FloatBits = 32 ∧
    (∀ (a b : Int) (fs : String → Except String DataFrame) (fuel : Nat),
      (evaluate_node (addGraph a b) fs (fuel + 1) 0 []).out = .ok (.scalar (a + b))) ∧
    (∀ (a b : Int) (fs : String → Except String DataFrame) (fuel : Nat),
      (evaluate_node (subGraph a b) fs (fuel + 1) 0 []).out = .ok (.scalar (a - b))) ∧
    (∀ (s vx vy : Int) (fs : String → Except String DataFrame) (fuel : Nat),
      (evaluate_node (vtsGraph s vx vy) fs (fuel + 1) 0 []).out =
        .ok (.vec2 (vx * s) (vy * s))) ∧
    (∀ (x y : Int) (fs : String → Except String DataFrame) (fuel : Nat),
      (evaluate_node (mkvGraph x y) fs (fuel + 1) 0 []).out = .ok (.vec2 x y)) := by
  refine ⟨rfl, rfl, ?_, ?_, ?_, ?_⟩ <;>
    intro a b fs fuel <;>
    simp [evaluate_node, nodeBody, inputBody, inputCast, populate_output, andThen,
      withElog, ofExcept, addGraph, subGraph, vtsGraph, mkvGraph,
      Graph.node?, Graph.input?, Graph.output?, Graph.connection,
      Node.get_input, Node.get_output, List.lookup,
      MyValueType.try_to_scalar, MyValueType.try_to_vec2]

/-- C4: `SimpleFilter` with numeric input keeps exactly the elements `e` with
`min ≤ e ≤ max` (both bounds inclusive), in order, dropping nulls; in
particular filtering `[0,1,2,3,4,null]` with bounds 1 and 3 yields `[1,2,3]`. -/
theorem C4_filter_inclusive :
    (∀ (name : String) (xs : List (Option Int)) (mn mx : Int)
        (fs : String → Except String DataFrame) (fuel : Nat),
      evaluate_node (filterGraph name (.nums xs) mn mx) fs (fuel + 1) 0 [] =
        ⟨.ok (.series ⟨name, .nums (xs.filter (specFilterKeep mn mx))⟩),
         [(100, .series ⟨name, .nums (xs.filter (specFilterKeep mn mx))⟩)], [100], [0]⟩) ∧
    (evaluate_node (filterGraph "s" (.nums [some 0, some 1, some 2, some 3, some 4, none]) 1 3)
        fsNone 5 0 []).out = .ok (.series ⟨"s", .nums [some 1, some 2, some 3]⟩) :=
  ⟨simpleFilter_run, by decide⟩

/-- C5: `SelectColumn` returns the named column when it exists, and an empty
series named "empty" (with no error) when it does not; in particular selecting
column "y" from a one-column frame {"x": [1,2]} yields the empty series. -/
theorem C5_select_column :
    (∀ (cols : List Series) (cname : String)
        (fs : String → Except String DataFrame) (fuel : Nat),
      evaluate_node (selectGraph cols cname) fs (fuel + 1) 0 [] =
        match cols.find? (fun s => s.name == cname) with
        | some s => ⟨.ok (.series s), [(100, .series s)], [100], [0]⟩
        | none => ⟨.ok (.series ⟨"empty", .nums []⟩),
                   [(100, .series ⟨"empty", .nums []⟩)], [100], [0]⟩) ∧
    (evaluate_node (selectGraph [⟨"x", .nums [some 1, some 2]⟩] "y") fsNone 5 0 []).out =
      .ok (.series ⟨"empty", .nums []⟩) ∧
    (evaluate_node (selectGraph [⟨"x", .nums [some 1, some 2]⟩] "x") fsNone 5 0 []).out =
      .ok (.series ⟨"x", .nums [some 1, some 2]⟩) :=
  ⟨selectColumn_run, by decide, by decide⟩

/-- C6: an unconnected input port resolves to its stored constant, for any
graph, fuel and cache, leaving the cache untouched and evaluating nothing. -/
theorem C6_constant_fallback (g : Graph) (fs : String → Except String DataFrame)
    (fuel n : Nat) (pname : String) (c : Cache) (nd : Node) (i : Nat) (p : InputParam)
    (hnd : g.node? n = some nd) (hi : nd.get_input pname = some i)
    (hco : g.connection i = none) (hp : g.input? i = some p) :
    evaluate_input g fs fuel n pname c = ⟨.ok p.value, c, [], []⟩ :=
  evaluate_input_unconnected hnd hi hco hp

/-- Witness for C6: the unconnected `A` input of a fresh `AddScalar` node
yields its stored constant 0, with an unrelated cache entry left untouched. -/
theorem C6_constant_fallback_witness :
    evaluate_input (graphOfNode .AddScalar) fsNone 0 0 "A" [(7, .scalar 9)] =
      ⟨.ok (.scalar 0), [(7, .scalar 9)], [], []⟩ :=
  C6_constant_fallback (graphOfNode .AddScalar) fsNone 0 0 "A" [(7, .scalar 9)]
    ⟨.AddScalar, [("A", 0), ("B", 1)], [("out", 100)]⟩ 0 ⟨.scalar 0⟩
    (by decide) (by decide) (by decide) (by decide)

/-- C7: on a well-formed graph with an acyclicity ranking, evaluation from an
empty cache never exhausts fuel exceeding the requested node's rank (the
recursion depth is bounded by the longest dependency chain), while on the
cyclic graph `cycGraph` — the evaluator performs no cycle detection — every
fuel bound is exhausted (the Rust recursion would not terminate). -/
theorem C7_terminates (g : Graph) (rank : Nat → Nat)
    (fs : String → Except String DataFrame) (n fuel : Nat)
    (hwf : WFp g) (hrk : Rankedp g rank) (hfuel : rank n < fuel) :
    (evaluate_node g fs fuel n []).out ≠ Outcome.fuelOut ∧
    ∀ fuel2, (evaluate_node cycGraph fs fuel2 0 []).out = Outcome.fuelOut := by
  constructor
  · exact (evalNodeGood fs hwf hrk fuel n [] (fun o ho => Cache.not_mem_nil o)).noFuel hfuel
  · intro fuel2
    exact cyc_fuelOut fs fuel2 [] rfl

/-- Witness for C7, at the diamond graph with its ranking. -/
theorem C7_terminates_witness :
    (evaluate_node diamondGraph fsNone 10 3 []).out ≠ Outcome.fuelOut ∧
    (evaluate_node cycGraph fsNone 7 0 []).out = Outcome.fuelOut := by
  have h := C7_terminates diamondGraph diamondRank fsNone 3 10 (by decide) (by decide)
    (by decide)
  exact ⟨h.1, h.2 7⟩

/-- C8: calling `evaluate_node` with a node id not present in the graph
panics on the graph indexing (`graph[node_id]`) rather than returning an
error result, for any cache and any remaining fuel. -/
theorem C8_panics_on_missing_node (g : Graph) (fs : String → Except String DataFrame)
    (n fuel : Nat) (c : Cache) (h : g.node? n = none) :
    evaluate_node g fs (fuel + 1) n c = ⟨.panic "invalid NodeId", c, [], []⟩ := by
  simp [evaluate_node, nodeBody, h, evalPanic]

/-- Witness for C8: evaluating node 0 of the empty graph panics. -/
theorem C8_panics_on_missing_node_witness :
    evaluate_node emptyGraph fsNone 1 0 [] = ⟨.panic "invalid NodeId", [], [], []⟩ :=
  C8_panics_on_missing_node emptyGraph fsNone 0 0 [] (by decide)

/-- C9: `SimpleFilter` unwraps the polars comparison results, so a text
series input (such as a text column extracted by `SelectColumn`) makes the
evaluation panic instead of returning an error, while numeric series inputs
never reach that panic. -/
theorem C9_filter_text_panics :
    (∀ (name : String) (xs : List (Option String)) (mn mx : Int)
        (fs : String → Except String DataFrame) (fuel : Nat),
      (evaluate_node (filterGraph name (.strs xs) mn mx) fs (fuel + 1) 0 []).out =
        Outcome.panic
          "called unwrap on an Err value: cannot compare a string series with a number") ∧
    (∀ (name : String) (ys : List (Option Int)) (mn mx : Int)
        (fs : String → Except String DataFrame) (fuel : Nat),
      (evaluate_node (filterGraph name (.nums ys) mn mx) fs (fuel + 1) 0 []).out =
        .ok (.series ⟨name, .nums (ys.filter (specFilterKeep mn mx))⟩)) := by
  constructor
  · intro name xs mn mx fs fuel
    simp [evaluate_node, nodeBody, inputBody, inputCast, populate_output, andThen,
      withElog, ofExcept, unwrapE, filterGraph, Graph.node?, Graph.input?, Graph.output?,
      Graph.connection, Node.get_input, Node.get_output, List.lookup,
      MyValueType.try_to_scalar, MyValueType.try_to_series, Series.gt_eq]
  · intro name ys mn mx fs fuel
    rw [simpleFilter_run]

/-- C10: every input port created by `build_node` carries the default
constant determined by its data type (scalar 0, empty string, zero vector,
empty frame, empty series named "empty"), and on a freshly instantiated
unconnected node, resolving any input yields exactly that default. -/
theorem C10_default_constants (t : MyNodeTemplate) (pname : String)
    (dt : MyDataType) (v : MyValueType) (h : (pname, dt, v) ∈ (build_node t).1) :
    v = defaultValueFor dt ∧
    ∀ (fs : String → Except String DataFrame) (fuel : Nat) (c : Cache),
      evaluate_input (graphOfNode t) fs fuel 0 pname c =
        ⟨.ok (defaultValueFor dt), c, [], []⟩ := by
  cases t <;>
    simp only [build_node, List.mem_cons, List.not_mem_nil, or_false,
      Prod.mk.injEq] at h
  case MakeScalar =>
    obtain ⟨rfl, rfl, rfl⟩ := h
    refine ⟨rfl, fun fs fuel c => ?_⟩
    simp [evaluate_input, inputBody, graphOfNode, build_node, withIdx,
      Graph.node?, Node.get_input, Graph.connection, Graph.input?, List.lookup,
      defaultValueFor]
  case AddScalar =>
    rcases h with ⟨rfl, rfl, rfl⟩ | ⟨rfl, rfl, rfl⟩ <;>
      refine ⟨rfl, fun fs fuel c => ?_⟩ <;>
      simp [evaluate_input, inputBody, graphOfNode, build_node, withIdx,
        Graph.node?, Node.get_input, Graph.connection, Graph.input?, List.lookup,
        defaultValueFor]
  case SubtractScalar =>
    rcases h with ⟨rfl, rfl, rfl⟩ | ⟨rfl, rfl, rfl⟩ <;>
      refine ⟨rfl, fun fs fuel c => ?_⟩ <;>
      simp [evaluate_input, inputBody, graphOfNode, build_node, withIdx,
        Graph.node?, Node.get_input, Graph.connection, Graph.input?, List.lookup,
        defaultValueFor]
  case MakeVector =>
    rcases h with ⟨rfl, rfl, rfl⟩ | ⟨rfl, rfl, rfl⟩ <;>
      refine ⟨rfl, fun fs fuel c => ?_⟩ <;>
      simp [evaluate_input, inputBody, graphOfNode, build_node, withIdx,
        Graph.node?, Node.get_input, Graph.connection, Graph.input?, List.lookup,
        defaultValueFor]
  case AddVector =>
    rcases h with ⟨rfl, rfl, rfl⟩ | ⟨rfl, rfl, rfl⟩ <;>
      refine ⟨rfl, fun fs fuel c => ?_⟩ <;>
      simp [evaluate_input, inputBody, graphOfNode, build_node, withIdx,
        Graph.node?, Node.get_input, Graph.connection, Graph.input?, List.lookup,
        defaultValueFor]
  case SubtractVector =>
    rcases h with ⟨rfl, rfl, rfl⟩ | ⟨rfl, rfl, rfl⟩ <;>
      refine ⟨rfl, fun fs fuel c => ?_⟩ <;>
      simp [evaluate_input, inputBody, graphOfNode, build_node, withIdx,
        Graph.node?, Node.get_input, Graph.connection, Graph.input?, List.lookup,
        defaultValueFor]
  case VectorTimesScalar =>
    rcases h with ⟨rfl, rfl, rfl⟩ | ⟨rfl, rfl, rfl⟩ <;>
      refine ⟨rfl, fun fs fuel c => ?_⟩ <;>
      simp [evaluate_input, inputBody, graphOfNode, build_node, withIdx,
        Graph.node?, Node.get_input, Graph.connection, Graph.input?, List.lookup,
        defaultValueFor]
  case LoadCSV =>
    obtain ⟨rfl, rfl, rfl⟩ := h
    refine ⟨rfl, fun fs fuel c => ?_⟩
    simp [evaluate_input, inputBody, graphOfNode, build_node, withIdx,
      Graph.node?, Node.get_input, Graph.connection, Graph.input?, List.lookup,
      defaultValueFor]
  case CountRows =>
    obtain ⟨rfl, rfl, rfl⟩ := h
    refine ⟨rfl, fun fs fuel c => ?_⟩
    simp [evaluate_input, inputBody, graphOfNode, build_node, withIdx,
      Graph.node?, Node.get_input, Graph.connection, Graph.input?, List.lookup,
      defaultValueFor]
  case SelectColumn =>
    rcases h with ⟨rfl, rfl, rfl⟩ | ⟨rfl, rfl, rfl⟩ <;>
      refine ⟨rfl, fun fs fuel c => ?_⟩ <;>
      simp [evaluate_input, inputBody, graphOfNode, build_node, withIdx,
        Graph.node?, Node.get_input, Graph.connection, Graph.input?, List.lookup,
        defaultValueFor]
  case SimpleFilter =>
    rcases h with ⟨rfl, rfl, rfl⟩ | ⟨rfl, rfl, rfl⟩ | ⟨rfl, rfl, rfl⟩ <;>
      refine ⟨rfl, fun fs fuel c => ?_⟩ <;>
      simp [evaluate_input, inputBody, graphOfNode, build_node, withIdx,
        Graph.node?, Node.get_input, Graph.connection, Graph.input?, List.lookup,
        defaultValueFor]

/-- Witness for C10: the `min` input of a fresh `SimpleFilter` node holds the
scalar default 0 and resolves to it. -/
theorem C10_default_constants_witness :
    (MyValueType.scalar 0 = defaultValueFor MyDataType.scalar) ∧
    evaluate_input (graphOfNode .SimpleFilter) fsNone 3 0 "min" [] =
      ⟨.ok (defaultValueFor MyDataType.scalar), [], [], []⟩ := by
  have h := C10_default_constants MyNodeTemplate.SimpleFilter "min" MyDataType.scalar
    (MyValueType.scalar 0) (by decide)
  exact ⟨h.1, h.2 fsNone 3 []⟩

end NodeGraph
